import Mathlib

/-!
Shallow embedding of the CloudMart dashboard pipeline (`src/app_final.py`).

A dataset row is a record of optional cells: pandas `NaN` is `Option.none`.
The monthly cost is held as a non-negative decimal (`Dec`), the value
`pd.to_numeric(..., errors='coerce')` produces from a cost cell; missing or
unparseable cells become `none`.  The two tag-completeness columns that
Task 3 writes into the filtered view are modelled as optional fields that
the loader leaves `none` (the dataframe is schema-less, so an absent column
is an all-`none` field).

Tables are `List Row`; the pandas row index of a freshly loaded frame is
the position in the list, and positional indices are used wherever the
source aligns on the index (`df.update`).
-/

namespace CloudMart

/-- A non-negative decimal number `m / 10^e`, the exact value of a float
parsed from a decimal cost cell. -/
structure Dec where
  m : Nat
  e : Nat
deriving DecidableEq, Repr

/-- Numeric value of a decimal. -/
def Dec.toRat (d : Dec) : ℚ := (d.m : ℚ) / (10 ^ d.e : ℚ)

/-- Strip trailing fractional zeros from the pair `(m, e)`: structural
recursion on the exponent. -/
def Dec.normAux : Nat → Nat → Dec
  | m, 0 => ⟨m, 0⟩
  | m, e + 1 => if m % 10 = 0 then Dec.normAux (m / 10) e else ⟨m, e + 1⟩

/-- Strip trailing fractional zeros, so that `10.50` and `10.5` denote the
same decimal. -/
def Dec.norm (d : Dec) : Dec := Dec.normAux d.m d.e

/-- A decimal with no trailing fractional zero. -/
def Dec.Normal (d : Dec) : Prop := d.e = 0 ∨ ¬ (10 ∣ d.m)

instance (d : Dec) : Decidable d.Normal := by
  unfold Dec.Normal; infer_instance

/-- One resource record of the dashboard's dataframe.  Every cell may be
missing (`none`); `tagCompletenessScore` / `tagCompletenessPct` are the
columns Task 3 adds to the filtered view, absent (`none`) on load. -/
@[ext]
structure Row where
  accountID : Option String
  resourceID : Option String
  service : Option String
  region : Option String
  department : Option String
  project : Option String
  owner : Option String
  environment : Option String
  tagged : Option String
  monthlyCostUSD : Option Dec
  tagCompletenessScore : Option Nat := none
  tagCompletenessPct : Option ℚ := none
deriving DecidableEq, Repr

/-- Membership test `s.isin(sel)` for one cell: a missing cell is never a member of the
selection list (the sidebar options come from `dropna().unique()`, so the
list holds no missing marker). -/
def memSel (cell : Option String) (sel : List String) : Bool :=
  match cell with
  | none => false
  | some v => sel.contains v

/-- The conjunction of the four `isin` masks of `app_final.py` lines 48-53. -/
def rowMatches (svc reg dep proj : List String) (r : Row) : Bool :=
  memSel r.service svc && memSel r.region reg &&
    memSel r.department dep && memSel r.project proj

/-- The subset `filtered_df` (lines 48-53): the rows of `df` passing all four masks. -/
def filteredDf (df : List Row) (svc reg dep proj : List String) : List Row :=
  df.filter (rowMatches svc reg dep proj)

/-! ## Dataset Loader (`app_final.py` lines 20-29)

`pd.read_csv` turns an empty cell into the missing marker; every remaining
string cell is stripped of surrounding whitespace and has its `"` characters
removed (lines 26-28); `MonthlyCostUSD` is coerced to numeric with
unparseable cells becoming missing (line 29).  The numeric coercion is the
decimal grammar `digits [. digits]` over the cleaned cell. -/

/-- Is `c` one of the characters `0`..`9`? -/
def isDig (c : Char) : Bool := '0' ≤ c && c ≤ '9'

/-- Big-endian digit characters to the number they denote. -/
def digitsToNat (cs : List Char) : Nat :=
  cs.foldl (fun a c => 10 * a + (c.toNat - 48)) 0

/-- Split a cell at its decimal point: `none` if it has more than one `.`;
otherwise the characters before the point and, when a point is present,
those after it. -/
def dotSplit : List Char → Option (List Char × Option (List Char))
  | [] => some ([], none)
  | c :: rest =>
    if c = '.' then
      if rest.contains '.' then none else some ([], some rest)
    else
      (dotSplit rest).map fun p => (c :: p.1, p.2)

/-- Numeric coercion `pd.to_numeric(cell, errors='coerce')`: parse a decimal numeral,
yielding the trailing-zero-normal decimal it denotes, or `none` when the
cell is not a numeral. -/
def parseDec (cs : List Char) : Option Dec :=
  match dotSplit cs with
  | none => none
  | some (ip, none) =>
    if ip ≠ [] ∧ ip.all isDig then some (Dec.norm ⟨digitsToNat ip, 0⟩) else none
  | some (ip, some fp) =>
    if (ip ++ fp) ≠ [] ∧ ip.all isDig ∧ fp.all isDig then
      some (Dec.norm ⟨digitsToNat (ip ++ fp), fp.length⟩)
    else none

/-- Python `str.strip()`: drop whitespace characters from both ends. -/
def trimChars (cs : List Char) : List Char :=
  ((cs.dropWhile Char.isWhitespace).reverse.dropWhile Char.isWhitespace).reverse

/-- Cell cleaning of lines 27-28: strip surrounding whitespace, then delete
every `"` character (`.str.strip().str.replace('"', '')`). -/
def cleanStr (s : String) : String := ⟨(trimChars s.data).filter (· ≠ '"')⟩

/-- The raw fields `pd.read_csv` converts to the missing marker by default
(its default `na_values` sentinels, applied before any cleaning). -/
def naStrings : List String :=
  ["", "#N/A", "#N/A N/A", "#NA", "-1.#IND", "-1.#QNAN", "-NaN", "-nan",
    "1.#IND", "1.#QNAN", "<NA>", "N/A", "NA", "NULL", "NaN", "None", "n/a",
    "nan", "null"]

/-- Load one string cell: an NA-sentinel CSV field (empty, `NA`, `NaN`,
`None`, `null`, ...) is missing; anything else is cleaned. -/
def loadCell (s : String) : Option String :=
  if naStrings.contains s then none else some (cleanStr s)

/-- Load the cost cell: the NA sentinels are already missing before the
coercion; anything else is cleaned, then coerced to numeric (line 29). -/
def loadCost (s : String) : Option Dec :=
  if naStrings.contains s then none else parseDec (cleanStr s).data

/-- A CSV record: the ten cells of one data line, an empty string standing
for an empty field. -/
structure RawRow where
  accountID : String
  resourceID : String
  service : String
  region : String
  department : String
  project : String
  owner : String
  environment : String
  tagged : String
  monthlyCostUSD : String
deriving DecidableEq, Repr

/-- Load one CSV record into a row (lines 20-29). -/
def loadRow (c : RawRow) : Row where
  accountID := loadCell c.accountID
  resourceID := loadCell c.resourceID
  service := loadCell c.service
  region := loadCell c.region
  department := loadCell c.department
  project := loadCell c.project
  owner := loadCell c.owner
  environment := loadCell c.environment
  tagged := loadCell c.tagged
  monthlyCostUSD := loadCost c.monthlyCostUSD

/-- Load a whole CSV body. -/
def loadTable (cs : List RawRow) : List Row := cs.map loadRow

/-! ## CSV export (`df.to_csv(index=False)`, lines 214 and 313)

A missing cell is written as an empty field; a cost is written as its
decimal numeral (integer digits, and when the exponent is positive a `.`
followed by the zero-padded fraction digits). -/

/-- Little-endian digit characters of `n`; the fuel bounds the recursion
and any `fuel ≥ n` is enough. -/
def natDigitsRev : Nat → Nat → List Char
  | 0, _ => []
  | fuel + 1, n =>
    if n = 0 then [] else Char.ofNat (48 + n % 10) :: natDigitsRev fuel (n / 10)

/-- Big-endian digit characters of `n` (no leading zeros, `"0"` for 0). -/
def natDigits (n : Nat) : List Char :=
  if n = 0 then ['0'] else (natDigitsRev n n).reverse

/-- The characters `0`..`9`, as produced by the digit renderer. -/
def IsDigitChar (c : Char) : Prop := ∃ k, k < 10 ∧ c = Char.ofNat (48 + k)

/-- Render a decimal as the numeral `to_csv` writes for its float value. -/
def Dec.render (d : Dec) : String :=
  if d.e = 0 then ⟨natDigits d.m⟩
  else
    let frac := natDigits (d.m % 10 ^ d.e)
    ⟨natDigits (d.m / 10 ^ d.e) ++ '.' :: (List.replicate (d.e - frac.length) '0' ++ frac)⟩

/-- Serialize one row to a CSV record. -/
def serializeRow (r : Row) : RawRow where
  accountID := r.accountID.getD ""
  resourceID := r.resourceID.getD ""
  service := r.service.getD ""
  region := r.region.getD ""
  department := r.department.getD ""
  project := r.project.getD ""
  owner := r.owner.getD ""
  environment := r.environment.getD ""
  tagged := r.tagged.getD ""
  monthlyCostUSD := (r.monthlyCostUSD.map Dec.render).getD ""

/-- Serialize a whole table. -/
def serializeTable (df : List Row) : List RawRow := df.map serializeRow

/-- A string cell the loader's cleaning leaves alone: missing, or not one
of the NA sentinel strings and already trimmed and quote-free. -/
def cellOk (o : Option String) : Bool :=
  match o with
  | none => true
  | some v => !(naStrings.contains v) && (cleanStr v == v)

/-- A row the CSV export/reload cycle can reproduce exactly: clean string
cells, a cost in the numeric parser's image (no trailing fractional zeros),
and no Task 3 columns (the full table never has them). -/
def rowOk (r : Row) : Bool :=
  cellOk r.accountID && cellOk r.resourceID && cellOk r.service &&
    cellOk r.region && cellOk r.department && cellOk r.project &&
    cellOk r.owner && cellOk r.environment && cellOk r.tagged &&
    (match r.monthlyCostUSD with
      | none => true
      | some d => decide d.Normal) &&
    r.tagCompletenessScore.isNone && r.tagCompletenessPct.isNone

/-! ## Aggregation reporters (Tasks 1-3) -/

/-- The numeric contribution of a row's cost to a sum: `groupby(...).sum()`
skips missing values (and an all-missing group sums to 0), so a missing
cost contributes 0. -/
def costVal (r : Row) : ℚ :=
  match r.monthlyCostUSD with
  | none => 0
  | some d => d.toRat

/-- Sum of the non-missing costs of a list of rows. -/
def sumCost (rows : List Row) : ℚ := (rows.map costVal).sum

/-- Count `(rows['Tagged'] == t).sum()`: a missing `Tagged` compares unequal. -/
def countTag (rows : List Row) (t : String) : Nat :=
  rows.countP fun r => r.tagged == some t

/-- Sum `groupby('Tagged')['MonthlyCostUSD'].sum()` at group `t` (line 104). -/
def costByTag (rows : List Row) (t : String) : ℚ :=
  sumCost (rows.filter fun r => r.tagged == some t)

/-- Percentage `(filtered_df['Tagged']=='No').mean() * 100` (line 94): the mean of an
empty boolean series is the missing value `NaN`, embedded as `none`. -/
def percentUntagged (rows : List Row) : Option ℚ :=
  if rows.length = 0 then none
  else some ((countTag rows "No" : ℚ) / (rows.length : ℚ) * 100)

/-- Round half to even at integer precision, numpy's rounding mode. -/
def rhe (q : ℚ) : ℤ :=
  let f := ⌊q⌋
  let r := q - (f : ℚ)
  if r < 1 / 2 then f
  else if 1 / 2 < r then f + 1
  else if f % 2 = 0 then f else f + 1

/-- Rounding `.round(2)`: round half to even at two decimal places. -/
def round2 (q : ℚ) : ℚ := (rhe (q * 100) : ℚ) / 100

/-- One cell of the Environment × Tagged cost cross-tab (line 152):
`groupby(['Environment','Tagged'])['MonthlyCostUSD'].sum()` with
`unstack(fill_value=0)`, so an absent pair yields 0. -/
def envCostByTag (rows : List Row) (env t : String) : ℚ :=
  sumCost (rows.filter fun r => r.environment == some env && r.tagged == some t)

/-- Does the unstacked cross-tab of line 152 have a column for tag status
`t`?  A `(Environment, Tagged)` group exists exactly when some row has a
non-missing Environment and that `Tagged` value (`groupby` drops rows with
a missing key), and `unstack` makes a column out of every `Tagged` value
that occurs in some group. -/
def hasEnvTagGroup (rows : List Row) (t : String) : Bool :=
  rows.any fun r => r.environment.isSome && (r.tagged == some t)

/-- The `% Untagged` cell of the cross-tab (lines 152-159) for one
Environment.  When the unstacked frame lacks a `Yes` or a `No` column —
e.g. on an empty filtered subset — line 158 raises `KeyError` before the
percentage is ever computed: the outer `none`.  Otherwise line 159 divides
`untagged / (tagged + untagged) * 100` and rounds to 2 decimals, and when
the total is 0 the float quotient `0/0` is `NaN`: the inner `none`. -/
def envPctUntagged (rows : List Row) (env : String) : Option (Option ℚ) :=
  if hasEnvTagGroup rows "Yes" && hasEnvTagGroup rows "No" then
    some
      (let u := envCostByTag rows env "No"
       let y := envCostByTag rows env "Yes"
       if y + u = 0 then none else some (round2 (u / (y + u) * 100)))
  else none

/-- Per-row tag completeness score (line 177): the number of non-missing
cells among Department, Project, Owner. -/
def scoreOf (r : Row) : Nat :=
  [r.department, r.project, r.owner].countP Option.isSome

/-- Task 3 (lines 176-179) writes the score and the percentage
`(score / 3 * 100).round(2)` into the filtered view as two new columns. -/
def addScores (rows : List Row) : List Row :=
  rows.map fun r =>
    { r with
      tagCompletenessScore := some (scoreOf r)
      tagCompletenessPct := some (round2 ((scoreOf r : ℚ) / 3 * 100)) }

/-- Erase the two Task 3 columns from a row. -/
def dropScores (r : Row) : Row :=
  { r with tagCompletenessScore := none, tagCompletenessPct := none }

/-- Every cell of a row except the three editable tag columns — in
particular the identifier cells `AccountID` and `ResourceID`. -/
def nonTagCells (r : Row) :
    Option String × Option String × Option String × Option String ×
      Option String × Option String × Option Dec :=
  (r.accountID, r.resourceID, r.service, r.region, r.environment, r.tagged,
    r.monthlyCostUSD)

/-! ## Remediation (Task 5, lines 299-306)

The data editor returns, per pandas index label of `untagged_df`, new
values for the three tag columns; a cleared cell is `none`.  The label of a
row of the loaded table is its position.  `untagged_df[tag_fields] =
edited_tags` followed by `df.update(untagged_df)` aligns on those labels:
rows the dynamic grid added carry fresh labels and are dropped by the
alignment, a label with no surviving edit keeps its values, and a missing
(`NaN`) edited cell is ignored by `update`, keeping the old value. -/

/-- Edited values for the three tag columns of one grid row. -/
structure TagEdit where
  department : Option String
  project : Option String
  owner : Option String
deriving DecidableEq, Repr

/-- The value a tag cell has after `df.update`: the edited value when it is
non-missing, the old value otherwise. -/
def applyEdit (r : Row) (e : TagEdit) : Row :=
  { r with
    department := e.department.orElse fun _ => r.department
    project := e.project.orElse fun _ => r.project
    owner := e.owner.orElse fun _ => r.owner }

/-- Positions (pandas labels) of the rows satisfying `p`, counting from `i`. -/
def idxFrom (p : Row → Bool) (i : Nat) : List Row → List Nat
  | [] => []
  | r :: rs => if p r then i :: idxFrom p (i + 1) rs else idxFrom p (i + 1) rs

/-- Labels of `untagged_df` (line 208): rows of the filtered view with
`Tagged == 'No'`. -/
def untaggedIdx (df : List Row) (svc reg dep proj : List String) : List Nat :=
  idxFrom (fun r => rowMatches svc reg dep proj r && r.tagged == some "No") 0 df

/-- The merge of lines 304-305 from position `i` on: a row whose label is a
target and has an edit takes the edited tag values; every other row is
unchanged.  Edit labels outside the table are ignored. -/
def mergeFrom (targets : List Nat) (edits : List (Nat × TagEdit)) (i : Nat) :
    List Row → List Row
  | [] => []
  | r :: rs =>
    (if targets.contains i then
      match edits.lookup i with
      | some e => applyEdit r e
      | none => r
    else r) :: mergeFrom targets edits (i + 1) rs

/-- Merge `df.update(untagged_df)` after `untagged_df[tag_fields] = edited_tags`. -/
def mergeEdits (df : List Row) (targets : List Nat) (edits : List (Nat × TagEdit)) :
    List Row :=
  mergeFrom targets edits 0 df

/-- Line 306: set `Tagged = 'Yes'` on every row whose three tag cells are
all non-missing; other rows keep their `Tagged` value. -/
def recomputeTagged (df : List Row) : List Row :=
  df.map fun r =>
    if r.department.isSome && r.project.isSome && r.owner.isSome then
      { r with tagged := some "Yes" }
    else r

/-- The whole remediation step (lines 304-306) on the loaded table. -/
def remediate (df : List Row) (svc reg dep proj : List String)
    (edits : List (Nat × TagEdit)) : List Row :=
  recomputeTagged (mergeEdits df (untaggedIdx df svc reg dep proj) edits)

/-! ## Before/after comparator (lines 320-332)

At line 321 `df` has already been mutated by `df.update` (line 305) and the
`Tagged` recompute (line 306), so the "Total Cost Before" column is the
cost-by-Tagged aggregation of the post-remediation full table; the "Total
Cost After" column (line 326) aggregates `filtered_df`, which was derived
at line 48 from the pre-remediation table and is not written back into by
the remediation, so it holds the pre-remediation figures. -/

/-- The "Total Cost Before ($)" column at tag status `t`. -/
def comparatorBefore (df : List Row) (svc reg dep proj : List String)
    (edits : List (Nat × TagEdit)) (t : String) : ℚ :=
  costByTag (remediate df svc reg dep proj edits) t

/-- The "Total Cost After ($)" column at tag status `t`. -/
def comparatorAfter (df : List Row) (svc reg dep proj : List String)
    (_edits : List (Nat × TagEdit)) (t : String) : ℚ :=
  costByTag (filteredDf df svc reg dep proj) t

/-! ## Concrete sample data -/

/-- A fully tagged sample row, cost `10.5`. -/
def exRow1 : Row :=
  { accountID := some "A1", resourceID := some "R1", service := some "EC2",
    region := some "us", department := some "Fin", project := some "Apollo",
    owner := some "alice", environment := some "Prod", tagged := some "No",
    monthlyCostUSD := some ⟨105, 1⟩ }

/-- Row `exRow1` with a missing Owner cell. -/
def exRowOwnerless : Row := { exRow1 with owner := none }

/-- Row `exRowOwnerless` after its remediation: owner filled, `Tagged` recomputed. -/
def exRowRem : Row := { exRowOwnerless with owner := some "bob", tagged := some "Yes" }

/-- Selections matching `exRow1` in each of the four filter columns. -/
def exSvc : List String := ["EC2"]

/-- Region selection for the samples. -/
def exReg : List String := ["us"]

/-- Department selection for the samples. -/
def exDep : List String := ["Fin"]

/-- Project selection for the samples. -/
def exProj : List String := ["Apollo"]

/-- A grid edit filling the Owner cell of the row at label 0. -/
def exEdits : List (Nat × TagEdit) := [(0, ⟨none, none, some "bob"⟩)]

/-- An untagged `Prod` row whose cost cell is missing, so its Environment's
total in the cross-tab is 0. -/
def exRowNaNCost : Row := { exRow1 with monthlyCostUSD := none }

/-- A tagged `Dev` row, supplying the cross-tab's `Yes` column. -/
def exRowDev : Row :=
  { exRow1 with environment := some "Dev", tagged := some "Yes" }

/-! ## Theorems -/

/-- A cell passing an `isin` mask is not missing. -/
lemma memSel_ne_none {o : Option String} {sel : List String}
    (h : memSel o sel = true) : o ≠ none := by
  cases o with
  | none => simp [memSel] at h
  | some v => simp

/-- No cell passes the `isin` mask of an empty selection. -/
lemma memSel_nil (o : Option String) : memSel o [] = false := by
  cases o <;> simp [memSel]

/-- A list on which the `Tagged` cell is everywhere `Yes` or `No` splits
into exactly its `Yes` rows and its `No` rows. -/
lemma countTag_partition (l : List Row)
    (h : ∀ r ∈ l, r.tagged = some "Yes" ∨ r.tagged = some "No") :
    countTag l "Yes" + countTag l "No" = l.length := by
  induction l with
  | nil => simp [countTag]
  | cons r rs ih =>
    have hr := h r (List.mem_cons_self _ _)
    have hrs := ih fun x hx => h x (List.mem_cons_of_mem _ hx)
    simp only [countTag, List.countP_cons, List.length_cons] at *
    rcases hr with h1 | h1 <;> simp [h1] <;> omega

/-- C1: the filtered subset holds exactly the rows of the full table whose
value in each of the four columns (Service, Region, Department, Project)
belongs to that column's selection set; a row with a missing value in any
of the four columns is excluded; an empty selection set in any one column
gives an empty result; and the filtered row count equals the brute-force
count of rows satisfying the four membership predicates. -/
theorem filteredDf_spec (df : List Row) (svc reg dep proj : List String) :
    (∀ r, r ∈ filteredDf df svc reg dep proj ↔
      r ∈ df ∧ memSel r.service svc ∧ memSel r.region reg ∧
        memSel r.department dep ∧ memSel r.project proj) ∧
    (∀ r ∈ filteredDf df svc reg dep proj,
      r.service ≠ none ∧ r.region ≠ none ∧ r.department ≠ none ∧ r.project ≠ none) ∧
    ((svc = [] ∨ reg = [] ∨ dep = [] ∨ proj = []) →
      filteredDf df svc reg dep proj = []) ∧
    (filteredDf df svc reg dep proj).length = df.countP (rowMatches svc reg dep proj) := by
  refine ⟨?_, ?_, ?_, ?_⟩
  · intro r
    simp [filteredDf, List.mem_filter, rowMatches, and_assoc]
  · intro r hr
    rw [filteredDf, List.mem_filter] at hr
    obtain ⟨-, hm⟩ := hr
    simp only [rowMatches, Bool.and_eq_true] at hm
    obtain ⟨⟨⟨h1, h2⟩, h3⟩, h4⟩ := hm
    exact ⟨memSel_ne_none h1, memSel_ne_none h2, memSel_ne_none h3, memSel_ne_none h4⟩
  · intro hsel
    rw [filteredDf, List.filter_eq_nil_iff]
    intro r _ hm
    simp only [rowMatches, Bool.and_eq_true] at hm
    obtain ⟨⟨⟨h1, h2⟩, h3⟩, h4⟩ := hm
    rcases hsel with h | h | h | h
    · simp [h, memSel_nil] at h1
    · simp [h, memSel_nil] at h2
    · simp [h, memSel_nil] at h3
    · simp [h, memSel_nil] at h4
  · rw [filteredDf, List.countP_eq_length_filter]

/-- Witness for C1 at a concrete table: an empty Service selection empties
the result. -/
theorem filteredDf_spec_witness :
    filteredDf [exRow1] [] exReg exDep exProj = [] :=
  (filteredDf_spec [exRow1] [] exReg exDep exProj).2.2.1 (Or.inl rfl)

/-- C6: on a table whose `Tagged` cells all hold `Yes` or `No` (the data
model's enum), the `Yes` count plus the `No` count of the filtered subset
equals its row count, for every filter state — in particular both counts
are 0 in the all-excluded state. -/
theorem tagged_counts_sum (df : List Row)
    (hdf : ∀ r ∈ df, r.tagged = some "Yes" ∨ r.tagged = some "No")
    (svc reg dep proj : List String) :
    countTag (filteredDf df svc reg dep proj) "Yes" +
      countTag (filteredDf df svc reg dep proj) "No" =
      (filteredDf df svc reg dep proj).length :=
  countTag_partition _ fun r hr => hdf r (List.mem_of_mem_filter hr)

/-- Witness for C6 on a one-row table. -/
theorem tagged_counts_sum_witness :
    countTag (filteredDf [exRow1] exSvc exReg exDep exProj) "Yes" +
      countTag (filteredDf [exRow1] exSvc exReg exDep exProj) "No" =
      (filteredDf [exRow1] exSvc exReg exDep exProj).length :=
  tagged_counts_sum [exRow1] (by decide) exSvc exReg exDep exProj

/-- C9: every row of the Task 3 output carries a score equal to the number
of non-missing cells among Department, Project and Owner, that score is one
of 0, 1, 2, 3, and the percentage column is `score / 3 * 100` rounded to
two decimals. -/
theorem tag_completeness_spec (rows : List Row) (r : Row)
    (hr : r ∈ addScores rows) :
    r.tagCompletenessScore =
      some ([r.department, r.project, r.owner].countP Option.isSome) ∧
    (∀ s, r.tagCompletenessScore = some s → s = 0 ∨ s = 1 ∨ s = 2 ∨ s = 3) ∧
    r.tagCompletenessPct =
      r.tagCompletenessScore.map fun s => round2 ((s : ℚ) / 3 * 100) := by
  obtain ⟨r0, -, rfl⟩ := List.mem_map.mp hr
  refine ⟨rfl, ?_, rfl⟩
  intro s hs
  have h3 : scoreOf r0 ≤ 3 := List.countP_le_length _
  have : s = scoreOf r0 := by simpa using hs.symm
  omega

/-- Witness for C9 on the singleton table holding `exRow1`. -/
theorem tag_completeness_witness :
    ({ exRow1 with
        tagCompletenessScore := some (scoreOf exRow1)
        tagCompletenessPct := some (round2 ((scoreOf exRow1 : ℚ) / 3 * 100)) } : Row).tagCompletenessScore =
      some ([exRow1.department, exRow1.project, exRow1.owner].countP Option.isSome) :=
  (tag_completeness_spec [exRow1] _ (by simp [addScores])).1

/-- The merge keeps the length of any suffix it walks. -/
lemma mergeFrom_length (targets : List Nat) (edits : List (Nat × TagEdit)) :
    ∀ (l : List Row) (i : Nat), (mergeFrom targets edits i l).length = l.length := by
  intro l
  induction l with
  | nil => intro i; rfl
  | cons r rs ih => intro i; simp [mergeFrom, ih]

/-- The merge never touches a cell outside the three tag columns. -/
lemma mergeFrom_nonTagCells (targets : List Nat) (edits : List (Nat × TagEdit)) :
    ∀ (l : List Row) (i j : Nat),
      ((mergeFrom targets edits i l)[j]?).map nonTagCells =
        (l[j]?).map nonTagCells := by
  intro l
  induction l with
  | nil => intro i j; rfl
  | cons r rs ih =>
    intro i j
    cases j with
    | zero =>
      simp only [mergeFrom, List.getElem?_cons_zero, Option.map_some']
      split
      · split <;> rfl
      · rfl
    | succ j =>
      simp only [mergeFrom, List.getElem?_cons_succ]
      exact ih (i + 1) j

/-- C10: the remediation merge aligns edits with existing rows by index
label: for every edit list — including edits at labels the dynamic grid
invented, which exist in no table row — the merged table has exactly the
row count of the original, and every row keeps all its cells outside the
three editable tag columns (in particular its `AccountID`/`ResourceID`
identity and its position), so rows added in the grid never reach the
updated table. -/
theorem merge_frame (df : List Row) (targets : List Nat)
    (edits : List (Nat × TagEdit)) :
    (mergeEdits df targets edits).length = df.length ∧
    ∀ i : Nat, ((mergeEdits df targets edits)[i]?).map nonTagCells =
      (df[i]?).map nonTagCells :=
  ⟨mergeFrom_length targets edits df 0,
    fun i => mergeFrom_nonTagCells targets edits df 0 i⟩

/-- C2: after the merge, the `Tagged` recompute (line 306) sets `Yes` on
exactly the rows whose three tag cells are all non-missing and leaves every
other row's `Tagged` cell as it was before the recomputation. -/
theorem remediation_spec (df : List Row) (svc reg dep proj : List String)
    (edits : List (Nat × TagEdit)) (i : Nat) (m r : Row)
    (hm : (mergeEdits df (untaggedIdx df svc reg dep proj) edits)[i]? = some m)
    (hr : (remediate df svc reg dep proj edits)[i]? = some r) :
    (m.department.isSome ∧ m.project.isSome ∧ m.owner.isSome →
      r.tagged = some "Yes") ∧
    (¬(m.department.isSome ∧ m.project.isSome ∧ m.owner.isSome) →
      r.tagged = m.tagged) := by
  rw [remediate, recomputeTagged, List.getElem?_map, hm, Option.map_some'] at hr
  obtain rfl : _ = r := Option.some.inj hr
  by_cases hc : (m.department.isSome && m.project.isSome && m.owner.isSome) = true
  · constructor
    · intro _
      simp only [if_pos hc]
    · intro hnot
      exact absurd (by simpa [Bool.and_eq_true, and_assoc] using hc) hnot
  · constructor
    · intro h
      exact absurd (by simp [Bool.and_eq_true, h.1, h.2.1, h.2.2]) hc
    · intro _
      simp only [if_neg hc]

/-- Witness for C2: filling the missing Owner cell of the untagged sample
row makes its `Tagged` cell `Yes` after remediation. -/
theorem remediation_spec_witness : exRowRem.tagged = some "Yes" :=
  (remediation_spec [exRowOwnerless] exSvc exReg exDep exProj exEdits 0
    { exRowOwnerless with owner := some "bob" } exRowRem
    (by decide) (by decide)).1 (by decide)

/-- Counterexample to C3: line 94 computes `mean()` of an empty boolean
series, which is the missing value `NaN`, not 0 — the percentage-untagged
reporter on an empty filtered subset does not return 0. -/
theorem percent_untagged_cex : percentUntagged ([] : List Row) ≠ some 0 := by
  decide

/-- C3 amended: neither percentage-untagged computation returns 0 on a zero
denominator.  The summary percentage (line 94) on an empty filtered subset
is the missing value `NaN` (mean of an empty series), not 0; and whenever
the cross-tab of lines 152-159 computes at all — both a `Yes` and a `No`
column must exist after unstacking, else line 158 raises `KeyError`, in
particular on the empty subset — an Environment whose total cost is 0 gets
`% Untagged` `NaN` (the float quotient `0/0`), not 0. -/
theorem percent_untagged_nan (rows : List Row) (env : String) :
    (rows.length = 0 → percentUntagged rows = none) ∧
    (hasEnvTagGroup rows "Yes" = true → hasEnvTagGroup rows "No" = true →
      envCostByTag rows env "Yes" + envCostByTag rows env "No" = 0 →
      envPctUntagged rows env = some none) ∧
    (hasEnvTagGroup rows "Yes" = false ∨ hasEnvTagGroup rows "No" = false →
      envPctUntagged rows env = none) := by
  refine ⟨?_, ?_, ?_⟩
  · intro h0
    simp [percentUntagged, h0]
  · intro hy hn hc
    rw [envPctUntagged, if_pos (by rw [hy, hn]; rfl)]
    simp only [if_pos hc]
  · intro h
    rw [envPctUntagged, if_neg]
    rcases h with h | h <;> simp [h]

/-- Witness for the amended C3: the summary percentage on the empty subset,
the `% Untagged` cell of a zero-cost Environment in a two-row subset whose
cross-tab does compute, and the `KeyError` on the empty subset. -/
theorem percent_untagged_nan_witness :
    percentUntagged ([] : List Row) = none ∧
    envPctUntagged [exRowNaNCost, exRowDev] "Prod" = some none ∧
    envPctUntagged ([] : List Row) "Prod" = none :=
  ⟨(percent_untagged_nan [] "Prod").1 rfl,
    (percent_untagged_nan [exRowNaNCost, exRowDev] "Prod").2.1 (by decide)
      (by decide)
      (by simp +decide [envCostByTag, sumCost, costVal, exRowNaNCost, exRowDev,
        exRow1, List.filter_cons]),
    (percent_untagged_nan [] "Prod").2.2 (Or.inl (by decide))⟩

/-- C4 fails on the code: at line 321 the full table `df` has already been
mutated by lines 304-306, so the "Total Cost Before ($)" column equals the
post-remediation aggregation, while the "Total Cost After ($)" column
(line 326) aggregates the filtered view derived at line 48 from the
pre-remediation table.  On a one-row table (Tagged `No`, cost `10.5`,
Owner missing) whose remediation fills the Owner cell: the claimed
"before" value is `10.5` but the code shows `0`, and the claimed "after"
value is `0` but the code shows `10.5`. -/
theorem comparator_code_bug :
    comparatorBefore [exRowOwnerless] exSvc exReg exDep exProj exEdits "No" = 0 ∧
    costByTag [exRowOwnerless] "No" = 21 / 2 ∧
    comparatorAfter [exRowOwnerless] exSvc exReg exDep exProj exEdits "No" = 21 / 2 ∧
    costByTag (remediate [exRowOwnerless] exSvc exReg exDep exProj exEdits) "No" = 0 := by
  refine ⟨?_, ?_, ?_, ?_⟩ <;>
    · simp +decide [comparatorBefore, comparatorAfter, remediate, mergeEdits,
        mergeFrom, untaggedIdx, idxFrom, recomputeTagged, filteredDf, rowMatches,
        memSel, applyEdit, costByTag, sumCost, costVal, exRowOwnerless, exRow1,
        exSvc, exReg, exDep, exProj, exEdits, Dec.toRat, List.filter_cons]
      <;> norm_num

/-- Counterexample to C5: Task 3 (lines 177-179) writes the two
tag-completeness columns into the filtered view in place, so the filtered
subset no longer has exactly its original columns. -/
theorem filtered_view_mutated_cex :
    addScores (filteredDf [exRow1] exSvc exReg exDep exProj) ≠
      filteredDf [exRow1] exSvc exReg exDep exProj := by
  decide

/-- C5 amended: downstream operations never change the values of the
filtered view's original columns — erasing the two columns Task 3 added
gives back exactly the filter engine's output cell for cell — and the
filter itself only selects rows of the full table (a sublist), mutating
nothing. -/
theorem filtered_view_amended (df : List Row) (svc reg dep proj : List String)
    (t : List Row) :
    (addScores t).map dropScores = t.map dropScores ∧
    (filteredDf df svc reg dep proj).Sublist df := by
  constructor
  · simp [addScores, dropScores]
  · exact List.filter_sublist _

/-- C7: loading is total — every CSV record yields a row; an unparseable
cost cell loads as the missing marker; a missing cost contributes nothing
to a cost-by-Tagged sum; and the Tagged/Untagged row counts are computed
from the `Tagged` cell alone, so a row with a missing cost still counts. -/
theorem loader_missing_cost_spec :
    (∀ cs : List RawRow, (loadTable cs).length = cs.length) ∧
    (∀ c : RawRow, parseDec (cleanStr c.monthlyCostUSD).data = none →
      (loadRow c).monthlyCostUSD = none) ∧
    (∀ (r : Row) (rows : List Row) (t : String), r.monthlyCostUSD = none →
      costByTag (r :: rows) t = costByTag rows t) ∧
    (∀ (r : Row) (rows : List Row) (t : String),
      countTag (r :: rows) t =
        countTag rows t + if r.tagged = some t then 1 else 0) := by
  refine ⟨?_, ?_, ?_, ?_⟩
  · intro cs
    simp [loadTable]
  · intro c h
    by_cases he : c.monthlyCostUSD ∈ naStrings
    · simp [loadRow, loadCost, he]
    · simp [loadRow, loadCost, he, h]
  · intro r rows t h
    by_cases ht : (r.tagged == some t) = true
    · simp [costByTag, List.filter_cons, ht, sumCost, costVal, h]
    · simp [costByTag, List.filter_cons, ht]
  · intro r rows t
    simp [countTag, List.countP_cons]

/-- Witness for C7: prepending a missing-cost row leaves the cost sum
unchanged. -/
theorem loader_missing_cost_witness :
    costByTag (({ exRow1 with monthlyCostUSD := none } : Row) :: [exRow1]) "No" =
      costByTag [exRow1] "No" :=
  loader_missing_cost_spec.2.2.1 _ [exRow1] "No" rfl

/-! ### Decimal print/parse round trip, for C8 -/

/-- A digit character is not whitespace, not a quote, not a dot, and
passes `isDig`. -/
lemma isDigitChar_props {c : Char} (h : IsDigitChar c) :
    c.isWhitespace = false ∧ c ≠ '"' ∧ c ≠ '.' ∧ isDig c = true := by
  obtain ⟨k, hk, rfl⟩ := h
  interval_cases k <;> exact ⟨by decide, by decide, by decide, by decide⟩

/-- Code point of a digit character. -/
lemma digit_toNat {k : Nat} (hk : k < 10) : (Char.ofNat (48 + k)).toNat = 48 + k := by
  interval_cases k <;> decide

/-- Every character the little-endian digit renderer emits is a digit. -/
lemma natDigitsRev_digits : ∀ fuel n : Nat, ∀ c ∈ natDigitsRev fuel n, IsDigitChar c := by
  intro fuel
  induction fuel with
  | zero => intro n c hc; simp [natDigitsRev] at hc
  | succ fuel ih =>
    intro n c hc
    rw [natDigitsRev] at hc
    by_cases hn : n = 0
    · simp [hn] at hc
    · rw [if_neg hn] at hc
      rcases List.mem_cons.mp hc with rfl | hc
      · exact ⟨n % 10, Nat.mod_lt _ (by norm_num), rfl⟩
      · exact ih _ c hc

/-- Folding the digit evaluation from a seed `a` shifts `a` past the whole
list. -/
lemma digitsToNat_from :
    ∀ (cs : List Char) (a : Nat),
      cs.foldl (fun x c => 10 * x + (c.toNat - 48)) a =
        a * 10 ^ cs.length + digitsToNat cs := by
  intro cs
  induction cs with
  | nil => intro a; simp [digitsToNat]
  | cons c cs ih =>
    intro a
    show cs.foldl _ (10 * a + (c.toNat - 48)) = _
    rw [ih, show digitsToNat (c :: cs) = cs.foldl
      (fun x c => 10 * x + (c.toNat - 48)) (10 * 0 + (c.toNat - 48)) from rfl, ih]
    simp [List.length_cons]
    ring

/-- Digit evaluation of a concatenation. -/
lemma digitsToNat_append (xs ys : List Char) :
    digitsToNat (xs ++ ys) = digitsToNat xs * 10 ^ ys.length + digitsToNat ys := by
  rw [digitsToNat, List.foldl_append, ← digitsToNat, digitsToNat_from]

/-- Leading zero characters do not change the digit evaluation. -/
lemma digitsToNat_replicate_zero (k : Nat) (cs : List Char) :
    digitsToNat (List.replicate k '0' ++ cs) = digitsToNat cs := by
  rw [digitsToNat_append]
  have h0 : digitsToNat (List.replicate k '0') = 0 := by
    induction k with
    | zero => rfl
    | succ k ih => rw [List.replicate_succ]; exact ih
  rw [h0, Nat.zero_mul, Nat.zero_add]

/-- With enough fuel, evaluating the rendered digits of `n` gives back `n`. -/
lemma natDigitsRev_toNat : ∀ fuel n : Nat, n ≤ fuel →
    digitsToNat (natDigitsRev fuel n).reverse = n := by
  intro fuel
  induction fuel with
  | zero => intro n hn; interval_cases n; rfl
  | succ fuel ih =>
    intro n hn
    rw [natDigitsRev]
    by_cases h0 : n = 0
    · simp [h0, digitsToNat]
    · rw [if_neg h0, List.reverse_cons, digitsToNat_append]
      have hdiv : n / 10 ≤ fuel := by
        have := Nat.div_lt_self (Nat.pos_of_ne_zero h0) (by norm_num : 1 < 10)
        omega
      have hm : n % 10 < 10 := Nat.mod_lt _ (by norm_num)
      have hc : digitsToNat [Char.ofNat (48 + n % 10)] = n % 10 := by
        show 10 * 0 + ((Char.ofNat (48 + n % 10)).toNat - 48) = n % 10
        rw [digit_toNat hm]
        omega
      rw [ih (n / 10) hdiv, hc]
      simp only [List.length_singleton, pow_one]
      omega

/-- Evaluating the big-endian digits of `n` gives back `n`. -/
lemma natDigits_toNat (n : Nat) : digitsToNat (natDigits n) = n := by
  rw [natDigits]
  by_cases h : n = 0
  · rw [if_pos h, h]; decide
  · rw [if_neg h]; exact natDigitsRev_toNat n n le_rfl

/-- Every character of the big-endian digits is a digit. -/
lemma natDigits_digits (n : Nat) : ∀ c ∈ natDigits n, IsDigitChar c := by
  rw [natDigits]
  split
  · intro c hc
    rw [List.mem_singleton] at hc
    exact ⟨0, by norm_num, by rw [hc]⟩
  · intro c hc
    exact natDigitsRev_digits n n c (List.mem_reverse.mp hc)

/-- The digit rendering of a number is never empty. -/
lemma natDigits_ne_nil (n : Nat) : natDigits n ≠ [] := by
  rw [natDigits]
  split
  · simp
  · rename_i h
    cases n with
    | zero => exact absurd rfl h
    | succ m =>
      rw [natDigitsRev, if_neg h]
      simp

/-- A number below `10 ^ e` renders to at most `e` digit characters. -/
lemma natDigitsRev_length : ∀ fuel n e : Nat, n < 10 ^ e →
    (natDigitsRev fuel n).length ≤ e := by
  intro fuel
  induction fuel with
  | zero => intro n e _; simp [natDigitsRev]
  | succ fuel ih =>
    intro n e hn
    rw [natDigitsRev]
    by_cases h0 : n = 0
    · simp [h0]
    · rw [if_neg h0]
      cases e with
      | zero => simp at hn; omega
      | succ e =>
        simp only [List.length_cons]
        have hlt : n / 10 < 10 ^ e := by
          rw [Nat.div_lt_iff_lt_mul (by norm_num : (0:ℕ) < 10)]
          calc n < 10 ^ (e + 1) := hn
            _ = 10 ^ e * 10 := by ring
        have := ih (n / 10) e hlt
        omega

/-- Length bound for the padded fraction part. -/
lemma natDigits_length_le {n e : Nat} (he : 0 < e) (hn : n < 10 ^ e) :
    (natDigits n).length ≤ e := by
  rw [natDigits]
  split
  · simpa using he
  · rw [List.length_reverse]; exact natDigitsRev_length n n e hn

/-- Splitting a dot-free cell finds no fraction part. -/
lemma dotSplit_no_dot : ∀ cs : List Char, '.' ∉ cs → dotSplit cs = some (cs, none) := by
  intro cs
  induction cs with
  | nil => intro _; rfl
  | cons c cs ih =>
    intro h
    have hc : ¬(c = '.') := fun hc => h (List.mem_cons.mpr (Or.inl hc.symm))
    rw [dotSplit, if_neg hc, ih fun hm => h (List.mem_cons_of_mem _ hm)]
    rfl

/-- Splitting at the unique dot recovers the two parts. -/
lemma dotSplit_mid : ∀ I F : List Char, '.' ∉ I → '.' ∉ F →
    dotSplit (I ++ '.' :: F) = some (I, some F) := by
  intro I
  induction I with
  | nil =>
    intro F _ hF
    show dotSplit ('.' :: F) = _
    rw [dotSplit, if_pos rfl, if_neg]
    simpa using hF
  | cons c I ih =>
    intro F hI hF
    have hc : ¬(c = '.') := fun hc => hI (List.mem_cons.mpr (Or.inl hc.symm))
    show dotSplit (c :: (I ++ '.' :: F)) = _
    rw [dotSplit, if_neg hc, ih F (fun hm => hI (List.mem_cons_of_mem _ hm)) hF]
    rfl

/-- Auxiliary `normAux` leaves a trailing-zero-free pair alone. -/
lemma Dec.normAux_eq_self (m e : Nat) (h : e = 0 ∨ ¬10 ∣ m) :
    Dec.normAux m e = ⟨m, e⟩ := by
  cases e with
  | zero => rfl
  | succ e =>
    rcases h with h | h
    · exact absurd h (Nat.succ_ne_zero e)
    · rw [Dec.normAux, if_neg fun hm => h (Nat.dvd_of_mod_eq_zero hm)]

/-- Normalisation fixes normal decimals. -/
lemma Dec.norm_of_normal (d : Dec) (h : d.Normal) : d.norm = d := by
  obtain ⟨m, e⟩ := d
  exact Dec.normAux_eq_self m e h

/-- An all-digit character list passes the parser's digit guard. -/
lemma all_isDig_of_digits {cs : List Char} (h : ∀ c ∈ cs, IsDigitChar c) :
    cs.all isDig = true := by
  rw [List.all_eq_true]
  intro c hc
  exact (isDigitChar_props (h c hc)).2.2.2

/-- An all-digit character list contains no dot. -/
lemma not_dot_of_digits {cs : List Char} (h : ∀ c ∈ cs, IsDigitChar c) :
    '.' ∉ cs :=
  fun hm => (isDigitChar_props (h _ hm)).2.2.1 rfl

/-- Parsing the rendered numeral of a normal decimal gives it back. -/
theorem parse_render (d : Dec) (h : d.Normal) :
    parseDec (Dec.render d).data = some d := by
  obtain ⟨m, e⟩ := d
  cases e with
  | zero =>
    show parseDec (natDigits m) = some ⟨m, 0⟩
    rw [parseDec, dotSplit_no_dot _ (not_dot_of_digits (natDigits_digits m))]
    show (if _ ∧ _ then _ else _) = _
    rw [if_pos ⟨natDigits_ne_nil m, all_isDig_of_digits (natDigits_digits m)⟩,
      natDigits_toNat]
    rfl
  | succ e =>
    have hfraclt : m % 10 ^ (e + 1) < 10 ^ (e + 1) :=
      Nat.mod_lt _ (Nat.pos_pow_of_pos _ (by norm_num))
    have hfraclen : (natDigits (m % 10 ^ (e + 1))).length ≤ e + 1 :=
      natDigits_length_le (Nat.succ_pos e) hfraclt
    have hFdigits : ∀ c ∈ List.replicate (e + 1 - (natDigits (m % 10 ^ (e + 1))).length) '0' ++
        natDigits (m % 10 ^ (e + 1)), IsDigitChar c := by
      intro c hc
      rcases List.mem_append.mp hc with hc | hc
      · rw [List.eq_of_mem_replicate hc]
        exact ⟨0, by norm_num, rfl⟩
      · exact natDigits_digits _ c hc
    show parseDec (natDigits (m / 10 ^ (e + 1)) ++ '.' ::
      (List.replicate (e + 1 - (natDigits (m % 10 ^ (e + 1))).length) '0' ++
        natDigits (m % 10 ^ (e + 1)))) = some ⟨m, e + 1⟩
    rw [parseDec, dotSplit_mid _ _ (not_dot_of_digits (natDigits_digits _))
      (not_dot_of_digits hFdigits)]
    show (if _ ∧ _ ∧ _ then _ else _) = _
    rw [if_pos ⟨by simp [natDigits_ne_nil],
      all_isDig_of_digits (natDigits_digits _), all_isDig_of_digits hFdigits⟩]
    have hFlen : (List.replicate (e + 1 - (natDigits (m % 10 ^ (e + 1))).length) '0' ++
        natDigits (m % 10 ^ (e + 1))).length = e + 1 := by
      rw [List.length_append, List.length_replicate]
      omega
    have hval : digitsToNat (natDigits (m / 10 ^ (e + 1)) ++
        (List.replicate (e + 1 - (natDigits (m % 10 ^ (e + 1))).length) '0' ++
          natDigits (m % 10 ^ (e + 1)))) = m := by
      rw [digitsToNat_append, digitsToNat_replicate_zero, natDigits_toNat,
        natDigits_toNat, hFlen, Nat.mul_comm]
      exact Nat.div_add_mod m (10 ^ (e + 1))
    rw [hval, hFlen]
    show some (Dec.norm ⟨m, e + 1⟩) = _
    rw [Dec.norm_of_normal _ h]

/-- Trimming does nothing to a list with no whitespace character. -/
lemma trimChars_of_no_ws {cs : List Char}
    (h : ∀ c ∈ cs, c.isWhitespace = false) : trimChars cs = cs := by
  have h1 : cs.dropWhile Char.isWhitespace = cs := by
    cases cs with
    | nil => rfl
    | cons c cs => simp [List.dropWhile_cons, h c (List.mem_cons_self c cs)]
  have h2 : cs.reverse.dropWhile Char.isWhitespace = cs.reverse := by
    cases hcs : cs.reverse with
    | nil => rfl
    | cons c cs' =>
      have hc : c ∈ cs := by
        rw [← List.mem_reverse, hcs]
        exact List.mem_cons_self _ _
      simp [List.dropWhile_cons, h c hc]
  rw [trimChars, h1, h2, List.reverse_reverse]

/-- The loader's cell cleaning does nothing to a string with no whitespace
at either end and no quote character. -/
lemma cleanStr_of_clean {cs : List Char}
    (hws : ∀ c ∈ cs, c.isWhitespace = false) (hq : ∀ c ∈ cs, c ≠ '"') :
    cleanStr ⟨cs⟩ = ⟨cs⟩ := by
  rw [cleanStr]
  show String.mk ((trimChars cs).filter _) = _
  rw [trimChars_of_no_ws hws, List.filter_eq_self.mpr
    fun c hc => decide_eq_true (hq c hc)]

/-- Every character a rendered decimal contains is a digit or the dot. -/
lemma render_chars (d : Dec) :
    ∀ c ∈ (Dec.render d).data, IsDigitChar c ∨ c = '.' := by
  obtain ⟨m, e⟩ := d
  cases e with
  | zero =>
    intro c hc
    exact Or.inl (natDigits_digits m c hc)
  | succ e =>
    intro c hc
    have hc' : c ∈ natDigits (m / 10 ^ (e + 1)) ++ '.' ::
        (List.replicate (e + 1 - (natDigits (m % 10 ^ (e + 1))).length) '0' ++
          natDigits (m % 10 ^ (e + 1))) := hc
    rcases List.mem_append.mp hc' with h | h
    · exact Or.inl (natDigits_digits _ c h)
    · rcases List.mem_cons.mp h with rfl | h
      · exact Or.inr rfl
      · rcases List.mem_append.mp h with h | h
        · rw [List.eq_of_mem_replicate h]
          exact Or.inl ⟨0, by norm_num, rfl⟩
        · exact Or.inl (natDigits_digits _ c h)

/-- The loader's cell cleaning does nothing to a rendered decimal. -/
lemma render_clean (d : Dec) : cleanStr (Dec.render d) = Dec.render d := by
  have hws : ∀ c ∈ (Dec.render d).data, c.isWhitespace = false := by
    intro c hc
    rcases render_chars d c hc with h | rfl
    · exact (isDigitChar_props h).1
    · decide
  have hq : ∀ c ∈ (Dec.render d).data, c ≠ '"' := by
    intro c hc
    rcases render_chars d c hc with h | rfl
    · exact (isDigitChar_props h).2.1
    · decide
  exact cleanStr_of_clean hws hq

/-- A rendered decimal is never the empty string. -/
lemma render_ne_empty (d : Dec) : Dec.render d ≠ "" := by
  obtain ⟨m, e⟩ := d
  intro h
  have hdata : (Dec.render ⟨m, e⟩).data = [] := by rw [h]
  cases e with
  | zero => exact natDigits_ne_nil m hdata
  | succ e =>
    have : natDigits (m / 10 ^ (e + 1)) = [] := by
      have := List.append_eq_nil.mp hdata
      exact this.1
    exact natDigits_ne_nil _ this

/-- A character of a rendered decimal cannot fail both the digit test and
the dot test. -/
lemma render_char_not_special (d : Dec) {c : Char}
    (hc : c ∈ (Dec.render d).data) (hdig : isDig c = false) (hdot : c ≠ '.') :
    False := by
  rcases render_chars d c hc with h | rfl
  · rw [(isDigitChar_props h).2.2.2] at hdig
    exact absurd hdig (by decide)
  · exact hdot rfl

/-- A rendered decimal — digits and at most one dot — is never one of the
NA sentinel strings. -/
lemma render_na_free (d : Dec) : naStrings.contains (Dec.render d) = false := by
  rw [Bool.eq_false_iff]
  intro hco
  have hmem : Dec.render d ∈ naStrings := by simpa using hco
  simp only [naStrings, List.mem_cons, List.not_mem_nil, or_false] at hmem
  rcases hmem with h | h | h | h | h | h | h | h | h | h | h | h | h | h | h | h | h | h | h
  · exact render_ne_empty d h
  · exact render_char_not_special d (show ('#' : Char) ∈ _ by rw [h]; decide)
      (by decide) (by decide)
  · exact render_char_not_special d (show ('#' : Char) ∈ _ by rw [h]; decide)
      (by decide) (by decide)
  · exact render_char_not_special d (show ('#' : Char) ∈ _ by rw [h]; decide)
      (by decide) (by decide)
  · exact render_char_not_special d (show ('-' : Char) ∈ _ by rw [h]; decide)
      (by decide) (by decide)
  · exact render_char_not_special d (show ('-' : Char) ∈ _ by rw [h]; decide)
      (by decide) (by decide)
  · exact render_char_not_special d (show ('-' : Char) ∈ _ by rw [h]; decide)
      (by decide) (by decide)
  · exact render_char_not_special d (show ('-' : Char) ∈ _ by rw [h]; decide)
      (by decide) (by decide)
  · exact render_char_not_special d (show ('#' : Char) ∈ _ by rw [h]; decide)
      (by decide) (by decide)
  · exact render_char_not_special d (show ('#' : Char) ∈ _ by rw [h]; decide)
      (by decide) (by decide)
  · exact render_char_not_special d (show ('<' : Char) ∈ _ by rw [h]; decide)
      (by decide) (by decide)
  · exact render_char_not_special d (show ('N' : Char) ∈ _ by rw [h]; decide)
      (by decide) (by decide)
  · exact render_char_not_special d (show ('N' : Char) ∈ _ by rw [h]; decide)
      (by decide) (by decide)
  · exact render_char_not_special d (show ('N' : Char) ∈ _ by rw [h]; decide)
      (by decide) (by decide)
  · exact render_char_not_special d (show ('N' : Char) ∈ _ by rw [h]; decide)
      (by decide) (by decide)
  · exact render_char_not_special d (show ('N' : Char) ∈ _ by rw [h]; decide)
      (by decide) (by decide)
  · exact render_char_not_special d (show ('n' : Char) ∈ _ by rw [h]; decide)
      (by decide) (by decide)
  · exact render_char_not_special d (show ('n' : Char) ∈ _ by rw [h]; decide)
      (by decide) (by decide)
  · exact render_char_not_special d (show ('n' : Char) ∈ _ by rw [h]; decide)
      (by decide) (by decide)

/-- Reloading a serialized clean string cell gives it back. -/
lemma loadCell_getD {o : Option String} (h : cellOk o = true) :
    loadCell (o.getD "") = o := by
  cases o with
  | none => rfl
  | some v =>
    simp only [cellOk, Bool.and_eq_true, Bool.not_eq_true', beq_iff_eq] at h
    show loadCell v = some v
    rw [loadCell, if_neg (fun hc => by rw [h.1] at hc; exact absurd hc (by decide)),
      h.2]

/-- Reloading a serialized normal cost cell gives it back. -/
lemma loadCost_serialize {o : Option Dec}
    (h : (match o with | none => true | some d => decide d.Normal) = true) :
    loadCost ((o.map Dec.render).getD "") = o := by
  cases o with
  | none => rfl
  | some d =>
    show loadCost (Dec.render d) = some d
    rw [loadCost,
      if_neg (fun hc => by rw [render_na_free d] at hc; exact absurd hc (by decide)),
      render_clean]
    exact parse_render d (of_decide_eq_true h)

/-- Reloading a serialized clean row gives it back. -/
lemma loadRow_serializeRow (r : Row) (h : rowOk r = true) :
    loadRow (serializeRow r) = r := by
  simp only [rowOk, Bool.and_eq_true] at h
  obtain ⟨⟨⟨⟨⟨⟨⟨⟨⟨⟨⟨h1, h2⟩, h3⟩, h4⟩, h5⟩, h6⟩, h7⟩, h8⟩, h9⟩, hc⟩, hs⟩, hp⟩ := h
  ext1
  · exact loadCell_getD h1
  · exact loadCell_getD h2
  · exact loadCell_getD h3
  · exact loadCell_getD h4
  · exact loadCell_getD h5
  · exact loadCell_getD h6
  · exact loadCell_getD h7
  · exact loadCell_getD h8
  · exact loadCell_getD h9
  · exact loadCost_serialize hc
  · exact (Option.isNone_iff_eq_none.mp hs).symm
  · exact (Option.isNone_iff_eq_none.mp hp).symm

/-- C8 fails as stated: a post-remediation table can hold an empty-string
tag cell (the editor validates nothing), and the CSV cycle turns it into a
missing cell, so reloading does not reproduce the table. -/
theorem export_roundtrip_cex :
    loadTable (serializeTable [{ exRow1 with department := some "" }]) ≠
      [{ exRow1 with department := some "" }] := by
  decide

/-- C8 amended: serializing the full table to CSV (no index column) and
reloading it through the Dataset Loader reproduces the table exactly,
provided every string cell is non-empty and already clean (trimmed and
quote-free), every cost is in the numeric parser's image (a non-negative
decimal with no trailing fractional zeros), and the table carries no
Task 3 columns — as the loaded, remediated full table always does. -/
theorem export_roundtrip (df : List Row) (h : ∀ r ∈ df, rowOk r = true) :
    loadTable (serializeTable df) = df := by
  induction df with
  | nil => rfl
  | cons r rs ih =>
    show loadRow (serializeRow r) :: loadTable (serializeTable rs) = r :: rs
    rw [loadRow_serializeRow r (h r (List.mem_cons_self _ _)),
      ih fun x hx => h x (List.mem_cons_of_mem _ hx)]

/-- Witness for the amended C8 on a clean one-row table. -/
theorem export_roundtrip_witness :
    loadTable (serializeTable [exRow1]) = [exRow1] :=
  export_roundtrip [exRow1] (by decide)

end CloudMart
